import Mathlib

/-!
Verification development for the DataLens repository (backend/db_connectors.py,
backend/quality_analyzer.py).

The Python source is shallowly embedded: numbers computed by Python arithmetic
are modelled as exact rationals (`ℚ`), database row counts as naturals, and
Python's `round(x, n)` as round-half-even on rationals.  Fallible code returns
`Except`.  The database connection itself is abstracted as an oracle structure
whose fields correspond one-to-one to the `execute` calls made by the source.
-/

namespace DataLens

/-- Python's `round` uses banker's rounding: halves go to the nearest even
integer, every other value to the nearest integer.  This models `round(q, 0)`
as an integer result on exact rationals. -/
def roundHalfEven (q : ℚ) : ℤ :=
  if Int.fract q = 1 / 2 then (if 2 ∣ ⌊q⌋ then ⌊q⌋ else ⌊q⌋ + 1) else round q

/-- Python's `round(q, n)` for `n` decimal digits, on exact rationals. -/
def pyRound (q : ℚ) (n : ℕ) : ℚ :=
  (roundHalfEven (q * 10 ^ n) : ℚ) / 10 ^ n

/-!  Shared ANSI-SQL statistics engine (`BaseConnector.get_column_stats`,
src/backend/db_connectors.py lines 188-210).  `total` and `nulls` are the
results of the two COUNT queries, `distinct` of COUNT(DISTINCT).  -/

/-- `stats["null_pct"] = round(nulls / total * 100, 2) if total else 0`. -/
def null_pct (total nulls : ℕ) : ℚ :=
  if total = 0 then 0 else pyRound ((nulls : ℚ) / (total : ℚ) * 100) 2

/-- `stats["completeness_pct"] = round((total - nulls) / total * 100, 2) if total else 0`. -/
def completeness_pct (total nulls : ℕ) : ℚ :=
  if total = 0 then 0 else pyRound (((total : ℚ) - (nulls : ℚ)) / (total : ℚ) * 100) 2

/-- `non_null = total - nulls;
stats["uniqueness_pct"] = round(distinct / non_null * 100, 2) if non_null > 0 else 0`. -/
def uniqueness_pct (total nulls distinct : ℕ) : ℚ :=
  let nonNull : ℤ := (total : ℤ) - (nulls : ℤ)
  if 0 < nonNull then pyRound ((distinct : ℚ) / (nonNull : ℚ) * 100) 2 else 0

/-!  Read-only guard (`BaseConnector._assert_read_only` and `_WRITE_PATTERN`,
src/backend/db_connectors.py lines 141-158), and the `execute` entry points of
the three connector variants.  -/

/-- ASCII whitespace as matched by Python's regex `\s` and `str.split()`. -/
def isPySpace (c : Char) : Bool :=
  c = ' ' || c = '\t' || c = '\n' || c = '\r' || c = '\x0b' || c = '\x0c'

/-- Python regex word characters (`\w` / the `\b` boundary), ASCII fragment. -/
def isWordChar (c : Char) : Bool :=
  c.isAlphanum || c = '_'

/-- The maximal run of word characters after leading whitespace, uppercased.
`_WRITE_PATTERN = ^\s*(KEYWORD|...)\b` with `re.IGNORECASE` matches `sql`
exactly when this leading word equals one of the blacklisted keywords. -/
def leadingKeyword (sql : String) : String :=
  String.mk (((sql.toList.dropWhile (fun c => isPySpace c)).takeWhile
    (fun c => isWordChar c)).map Char.toUpper)

/-- The keyword alternatives of `_WRITE_PATTERN`. -/
def writeKeywords : List String :=
  ["INSERT", "UPDATE", "DELETE", "DROP", "CREATE", "ALTER", "TRUNCATE",
   "MERGE", "REPLACE", "CALL", "EXEC", "EXECUTE", "GRANT", "REVOKE"]

/-- `_WRITE_PATTERN.match(sql)` succeeds. -/
def writePatternMatches (sql : String) : Bool :=
  writeKeywords.contains (leadingKeyword sql)

/-- `sql.strip().split()[0].upper()`: the first whitespace-delimited token,
uppercased (used in the `ValueError` message of `_assert_read_only`). -/
def firstTokenUpper (sql : String) : String :=
  String.mk (((sql.toList.dropWhile (fun c => isPySpace c)).takeWhile
    (fun c => !isPySpace c)).map Char.toUpper)

/-- Errors surfaced by connector `execute` paths.  `readOnlyViolation` models
the `ValueError("Write operation '<kw>' is not permitted ...")` raised by
`_assert_read_only`; `notConnected` the `ConnectionError` raised by
`SnowflakeConnector.execute` on a missing connection. -/
inductive DBError where
  | readOnlyViolation (keyword : String)
  | notConnected
deriving DecidableEq

/-- `BaseConnector._assert_read_only` (db_connectors.py lines 146-158). -/
def assertReadOnly (sql : String) : Except DBError Unit :=
  if writePatternMatches sql then
    .error (.readOnlyViolation (firstTokenUpper sql))
  else
    .ok ()

/-- Result of one `execute` call: `sent` lists the statements that reached the
underlying database driver, `result` is the returned rows or the raised error.
`ρ` is the row type of the underlying driver. -/
structure ExecOutcome (ρ : Type) where
  sent : List String
  result : Except DBError (List ρ)

/-- `SQLiteConnector.execute` (db_connectors.py lines 301-306): the guard runs
first; only then does the statement reach the sqlite3 cursor (`db`). -/
def sqliteExecute {ρ : Type} (db : String → List ρ) (sql : String) : ExecOutcome ρ :=
  match assertReadOnly sql with
  | .error e => { sent := [], result := .error e }
  | .ok _ => { sent := [sql], result := .ok (db sql) }

/-- `SnowflakeConnector.execute` (db_connectors.py lines 468-501): the guard
runs first, then the connection check, then the statement reaches the driver. -/
def snowflakeExecute {ρ : Type} (connected : Bool) (db : String → List ρ)
    (sql : String) : ExecOutcome ρ :=
  match assertReadOnly sql with
  | .error e => { sent := [], result := .error e }
  | .ok _ =>
    if connected then { sent := [sql], result := .ok (db sql) }
    else { sent := [], result := .error .notConnected }

/-- `PostgreSQLConnector.execute` (db_connectors.py lines 751-757): the
statement is passed to the psycopg2 cursor directly; `_assert_read_only` is
never called on this path. -/
def pgExecute {ρ : Type} (db : String → List ρ) (sql : String) : ExecOutcome ρ :=
  { sent := [sql], result := .ok (db sql) }

/-- Modelled from the spec: the read-only allow-list of §4.1 (SELECT, WITH,
SHOW, DESCRIBE, EXPLAIN, PRAGMA/equivalent, VALUES).  Used only to compare the
spec's allow-list contract with the source's blacklist guard. -/
def specAllowList : List String :=
  ["SELECT", "WITH", "SHOW", "DESCRIBE", "EXPLAIN", "PRAGMA", "VALUES"]

/-!  Quality analyzer (src/backend/quality_analyzer.py).  Human-readable issue
messages and fix texts are abstracted to their data payloads; everything else
follows `analyze_table_quality`, `_compute_freshness`, `_score_to_grade` and
`compute_database_quality_overview` line by line.  -/

/-- One entry of the `columns` list passed to `analyze_table_quality`
(`column_name`, `data_type`, `is_primary_key`, `is_nullable`). -/
structure Column where
  column_name : String
  data_type : String
  is_primary_key : Bool
  is_nullable : Bool
deriving DecidableEq

/-- The fields of a `get_column_stats` result that `analyze_table_quality`
reads.  Every field is optional: on an exception the source stores only an
`error` string (all fields absent here); a partial failure leaves a prefix of
the fields present. -/
structure ColStats where
  total_rows : Option ℕ
  null_count : Option ℕ
  completeness_pct : Option ℚ
  distinct_count : Option ℕ
  uniqueness_pct : Option ℚ
  min : Option ℚ
  max : Option ℚ
  avg : Option ℚ
deriving DecidableEq

/-- The `get_column_stats` outcome when the whole computation raised:
`col_stats = {"error": str(e)}`, so every statistics field is absent. -/
def errorStats : ColStats :=
  { total_rows := none, null_count := none, completeness_pct := none,
    distinct_count := none, uniqueness_pct := none,
    min := none, max := none, avg := none }

/-- The data content of an issue `message`/`fix` pair, one constructor per
`metrics["issues"].append` site in quality_analyzer.py. -/
inductive IssuePayload where
  | notNullCompleteness (completeness : ℚ) (nullCount : ℕ)
  | lowCompleteness (completeness : ℚ) (nullCount : ℕ) (total : ℕ)
  | pkDuplicates (uniqueness : ℚ) (dupCount : ℤ)
  | negativePrice (mn avg : ℚ)
  | noPrimaryKey
  | compositePkDuplicates (dupCombos : ℕ)
  | stale (score : ℚ)
deriving DecidableEq

/-- A quality issue: severity string, optional column reference, and the
abstracted message payload. -/
structure Issue where
  severity : String
  column : Option String
  payload : IssuePayload
deriving DecidableEq

/-- A highlight, one constructor per `metrics["highlights"].append` site. -/
inductive Highlight where
  | complete (column : String)
  | compositePkUnique (columns : List String) (rows : ℕ)
deriving DecidableEq

/-- The completeness branch of the per-column loop
(quality_analyzer.py lines 48-88): `if completeness < 50 and not nullable /
elif completeness < 80 / elif completeness == 100 and not nullable`. -/
def completenessStep (c : Column) (s : ColStats) : List Issue × List Highlight :=
  let comp := s.completeness_pct.getD 100
  let nulls := s.null_count.getD 0
  let total := s.total_rows.getD 0
  if comp < 50 ∧ c.is_nullable = false then
    ([{ severity := "high", column := some c.column_name,
        payload := .notNullCompleteness comp nulls }], [])
  else if comp < 80 then
    ([{ severity := "medium", column := some c.column_name,
        payload := .lowCompleteness comp nulls total }], [])
  else if comp = 100 ∧ c.is_nullable = false then
    ([], [.complete c.column_name])
  else
    ([], [])

/-- The uniqueness branch of the per-column loop (lines 92-124): a critical
issue only for a single-column primary key with `uniqueness_pct < 100`;
`dup_count = total_rows - distinct_count` (defaults 0). -/
def uniquenessStep (c : Column) (s : ColStats) (pkTotal : ℕ) : List Issue :=
  match s.uniqueness_pct with
  | none => []
  | some u =>
    if c.is_primary_key = true ∧ pkTotal = 1 ∧ u < 100 then
      [{ severity := "critical", column := some c.column_name,
         payload := .pkDuplicates u
           ((s.total_rows.getD 0 : ℤ) - (s.distinct_count.getD 0 : ℤ)) }]
    else []

/-- `needle` occurs as a contiguous sublist of the second argument
(Python's `needle in haystack` on strings). -/
def hasSub (needle : List Char) : List Char → Bool
  | [] => needle.isPrefixOf []
  | c :: rest => needle.isPrefixOf (c :: rest) || hasSub needle rest

/-- `"price" in col_name.lower()`. -/
def nameContainsPrice (name : String) : Bool :=
  hasSub "price".toList (name.toList.map Char.toLower)

/-- The negative-price branch of the per-column loop (lines 126-155):
requires min, max and avg all present, `max > 0 and min < 0` and a
price-like column name. -/
def priceStep (c : Column) (s : ColStats) : List Issue :=
  match s.min, s.max, s.avg with
  | some mn, some mx, some av =>
    if mx > 0 ∧ mn < 0 ∧ nameContainsPrice c.column_name = true then
      [{ severity := "high", column := some c.column_name,
         payload := .negativePrice mn av }]
    else []
  | _, _, _ => []

/-- Output of one iteration of the per-column loop of
`analyze_table_quality`: the issues and highlights appended, the score
appended to `scores` (the completeness, defaulting to 100), and the
`total_rows` update (`if col_stats.get("total_rows"):` — present and
non-zero). -/
structure ColStepOut where
  issues : List Issue
  highlights : List Highlight
  score : ℚ
  rowCount : Option ℕ
deriving DecidableEq

/-- One iteration of the per-column loop (lines 31-160). -/
def colStep (c : Column) (s : ColStats) (pkTotal : ℕ) : ColStepOut :=
  { issues := (completenessStep c s).1 ++ uniquenessStep c s pkTotal ++ priceStep c s
    highlights := (completenessStep c s).2
    score := s.completeness_pct.getD 100
    rowCount :=
      match s.total_rows with
      | some t => if t ≠ 0 then some t else none
      | none => none }

/-- The database connection as seen by `analyze_table_quality`, one field per
query the source issues.
* `colStats name dtype` — outcome of `connector.get_column_stats(table, name,
  dtype)` with its surrounding `try/except` (an all-absent record on error);
* `dupCombos pkNames` — outcome of
  `execute('SELECT COUNT(*) as c FROM (SELECT <pk cols> FROM <table> GROUP BY
  <pk cols> HAVING COUNT(*) > 1)')`: `.error ()` when the query raised,
  otherwise the duplicate-combination count (0 for an empty result);
* `maxDate col` — outcome of `execute('SELECT MAX(<col>) as latest FROM
  <table>')`: `.error ()` when it raised, `.ok none` when there are no rows or
  the maximum is NULL, `.ok (some s)` for the stringified maximum;
* `ageDays fmt s` — `datetime.strptime(s, fmt)` combined with
  `datetime.utcnow()`: `none` when parsing fails, otherwise the age in days. -/
structure Connector where
  colStats : String → String → ColStats
  dupCombos : List String → Except Unit ℕ
  maxDate : String → Except Unit (Option String)
  ageDays : String → String → Option ℤ

/-- The ordered format list of `_compute_freshness`. -/
def dateFormats : List String :=
  ["%Y-%m-%d %H:%M:%S", "%Y-%m-%d", "%Y-%m-%dT%H:%M:%S"]

/-- The age-band scoring of `_compute_freshness` (lines 277-283). -/
def freshnessBand (age : ℤ) : ℚ :=
  if age ≤ 1 then 100
  else if age ≤ 7 then 90
  else if age ≤ 30 then 80
  else if age ≤ 90 then 65
  else if age ≤ 180 then 50
  else if age ≤ 365 then 35
  else 20

/-- `_compute_freshness(connector, table_name, date_column)` (lines 263-288):
75 on query failure, 50 on missing/NULL maximum, the band score for the first
format that parses `latest_str[:19]`, 75 when none parses. -/
def computeFreshness (conn : Connector) (dateColumn : String) : ℚ :=
  match conn.maxDate dateColumn with
  | .error _ => 75
  | .ok none => 50
  | .ok (some latest) =>
    match dateFormats.findSome? (fun fmt => conn.ageDays fmt (latest.take 19)) with
    | some age => freshnessBand age
    | none => 75

/-- The temporal-type heuristic of the freshness step (lines 221-225):
any of "date", "time", "timestamp" occurs in the lowercased declared type. -/
def isTemporalType (dtype : String) : Bool :=
  ["date", "time", "timestamp"].any
    (fun t => hasSub t.toList (dtype.toList.map Char.toLower))

/-- `_score_to_grade` (lines 291-302). -/
def scoreToGrade (s : ℚ) : String :=
  if s ≥ 95 then "A+"
  else if s ≥ 90 then "A"
  else if s ≥ 85 then "A-"
  else if s ≥ 80 then "B+"
  else if s ≥ 75 then "B"
  else if s ≥ 70 then "B-"
  else if s ≥ 65 then "C+"
  else if s ≥ 60 then "C"
  else if s ≥ 55 then "C-"
  else if s ≥ 50 then "D"
  else "F"

/-- `severity_order = {"critical": 0, "high": 1, "medium": 2, "low": 3}` with
default 99 (line 257). -/
def severityRank (s : String) : ℕ :=
  if s = "critical" then 0
  else if s = "high" then 1
  else if s = "medium" then 2
  else if s = "low" then 3
  else 99

/-- The report returned by `analyze_table_quality` (the `metrics` dict),
restricted to the fields the claims are about; `issues` is sorted by severity
rank as by the final stable `list.sort`. -/
structure TableReport where
  table_name : String
  row_count : ℕ
  has_primary_key : Bool
  primary_key_columns : List String
  freshness_score : Option ℚ
  freshness_column : Option String
  overall_score : ℚ
  grade : String
  issues : List Issue
  highlights : List Highlight

/-- The per-column loop outputs of `analyze_table_quality` in column order;
`pk_cols_total` (line 29) is the number of primary-key columns. -/
def columnsSteps (conn : Connector) (cols : List Column) : List ColStepOut :=
  cols.map (fun c => colStep c (conn.colStats c.column_name c.data_type)
    ((cols.filter (fun c => c.is_primary_key)).length))

/-- The running `total_rows` variable after the loop (last column whose stats
carry a non-zero, present `total_rows`; initially 0). -/
def tableRowCount (conn : Connector) (cols : List Column) : ℕ :=
  (columnsSteps conn cols).foldl
    (fun acc p => match p.rowCount with | some t => t | none => acc) 0

/-- The issues appended by the table-level primary-key block
(quality_analyzer.py lines 169-218): a medium no-primary-key issue when there
is no PK column; for a composite PK, a critical issue when the GROUP BY
duplicate-combination query returns a positive count (query errors are
swallowed). -/
def pkIssuesPart (conn : Connector) (cols : List Column) : List Issue :=
  let pkCols := cols.filter (fun c => c.is_primary_key)
  if pkCols.isEmpty then
    [{ severity := "medium", column := none, payload := .noPrimaryKey }]
  else if pkCols.length > 1 then
    match conn.dupCombos (pkCols.map (fun c => c.column_name)) with
    | .error _ => []
    | .ok d =>
      if d > 0 then
        [{ severity := "critical",
           column := some (String.intercalate ", " (pkCols.map (fun c => c.column_name))),
           payload := .compositePkDuplicates d }]
      else []
  else []

/-- The highlight appended by the composite-PK validation when the GROUP BY
query finds no duplicate combination (lines 211-215). -/
def pkHighlightsPart (conn : Connector) (cols : List Column) : List Highlight :=
  let pkCols := cols.filter (fun c => c.is_primary_key)
  if pkCols.isEmpty then []
  else if pkCols.length > 1 then
    match conn.dupCombos (pkCols.map (fun c => c.column_name)) with
    | .error _ => []
    | .ok d =>
      if d > 0 then []
      else [.compositePkUnique (pkCols.map (fun c => c.column_name))
              (tableRowCount conn cols)]
  else []

/-- The score the primary-key block appends to `scores`: 70 without a PK
column (line 181), 100 otherwise (line 218). -/
def pkScorePart (cols : List Column) : ℚ :=
  if (cols.filter (fun c => c.is_primary_key)).isEmpty then 70 else 100

/-- The freshness block (lines 221-249): the first column whose declared type
matches the temporal heuristic, paired with its `_compute_freshness` score;
`none` when no column matches. -/
def freshPart (conn : Connector) (cols : List Column) : Option (String × ℚ) :=
  match cols.filter (fun c => isTemporalType c.data_type) with
  | [] => none
  | dc :: _ => some (dc.column_name, computeFreshness conn dc.column_name)

/-- The staleness issue appended when the freshness score is below 50
(lines 232-247). -/
def freshIssuesPart (conn : Connector) (cols : List Column) : List Issue :=
  match freshPart conn cols with
  | none => []
  | some (col, fs) =>
    if fs < 50 then
      [{ severity := "medium", column := some col, payload := .stale fs }]
    else []

/-- The full `scores` list averaged at line 253: per-column completeness
scores, then the primary-key score, then the freshness score if present. -/
def analyzeScores (conn : Connector) (cols : List Column) : List ℚ :=
  (columnsSteps conn cols).map (fun p => p.score) ++ [pkScorePart cols]
    ++ (match freshPart conn cols with | none => [] | some (_, fs) => [fs])

/-- `analyze_table_quality(connector, table_name, columns)`
(quality_analyzer.py lines 11-260). -/
def analyzeTableQuality (conn : Connector) (tableName : String)
    (columns : List Column) : TableReport :=
  let pkCols := columns.filter (fun c => c.is_primary_key)
  let scores := analyzeScores conn columns
  let overall : ℚ := scores.sum / scores.length
  { table_name := tableName
    row_count := tableRowCount conn columns
    has_primary_key := !pkCols.isEmpty
    primary_key_columns := pkCols.map (fun c => c.column_name)
    freshness_score := (freshPart conn columns).map (fun p => p.2)
    freshness_column := (freshPart conn columns).map (fun p => p.1)
    overall_score := if scores = [] then 0 else pyRound overall 1
    grade := if scores = [] then "F" else scoreToGrade overall
    issues := (((columnsSteps conn columns).map (fun p => p.issues)).flatten
        ++ pkIssuesPart conn columns ++ freshIssuesPart conn columns).mergeSort
      (fun a b => severityRank a.severity ≤ severityRank b.severity)
    highlights := ((columnsSteps conn columns).map (fun p => p.highlights)).flatten
      ++ pkHighlightsPart conn columns }

/-- One element of the `table_metrics` list consumed by
`compute_database_quality_overview`: the fields it reads from each table's
report. -/
structure TableMetricsIn where
  table_name : String
  overall_score : ℚ
  issues : List Issue
deriving DecidableEq

/-- An issue tagged with its table (`{**issue, "table": ...}`). -/
structure TaggedIssue where
  issue : Issue
  table : String
deriving DecidableEq

/-- The dict returned by `compute_database_quality_overview`. -/
structure Overview where
  database_score : ℚ
  database_grade : String
  total_tables : ℕ
  tables_analyzed : ℕ
  critical_issues : ℕ
  high_issues : ℕ
  top_issues : List TaggedIssue
  best_table : String
  worst_table : String
  dist_excellent : ℕ
  dist_good : ℕ
  dist_fair : ℕ
  dist_poor : ℕ
deriving DecidableEq

/-- Python's `max(xs, key=f)`: first maximal element (strict improvement
replaces the current best). -/
def pyMaxBy {α : Type} (f : α → ℚ) (x : α) : List α → α
  | [] => x
  | y :: ys => pyMaxBy f (if f y > f x then y else x) ys

/-- Python's `min(xs, key=f)`: first minimal element. -/
def pyMinBy {α : Type} (f : α → ℚ) (x : α) : List α → α
  | [] => x
  | y :: ys => pyMinBy f (if f y < f x then y else x) ys

/-- `compute_database_quality_overview(table_metrics)` (lines 305-337);
`none` models the empty dict returned for an empty input list. -/
def computeDatabaseQualityOverview (ts : List TableMetricsIn) : Option Overview :=
  match ts with
  | [] => none
  | t0 :: rest =>
    let all := t0 :: rest
    let scores := all.map (fun t => t.overall_score)
    let avg : ℚ := scores.sum / scores.length
    let allIssues := (all.map (fun t => t.issues.map
      (fun i => TaggedIssue.mk i t.table_name))).flatten
    let critical := allIssues.filter (fun i => i.issue.severity = "critical")
    let high := allIssues.filter (fun i => i.issue.severity = "high")
    some
      { database_score := pyRound avg 1
        database_grade := scoreToGrade avg
        total_tables := all.length
        tables_analyzed := all.length
        critical_issues := critical.length
        high_issues := high.length
        top_issues := (critical ++ high).take 5
        best_table := (pyMaxBy (fun t => t.overall_score) t0 rest).table_name
        worst_table := (pyMinBy (fun t => t.overall_score) t0 rest).table_name
        dist_excellent := (scores.filter (fun s => s ≥ 90)).length
        dist_good := (scores.filter (fun s => 75 ≤ s ∧ s < 90)).length
        dist_fair := (scores.filter (fun s => 60 ≤ s ∧ s < 75)).length
        dist_poor := (scores.filter (fun s => s < 60)).length }

/-- Modelled from the spec (§4.3 Aggregation): the collection averaged into
`overall_score` — each column's completeness_pct, one primary-key contribution
(70 when the table has no PK column, 100 otherwise), and the freshness score
when a temporal column exists.  Compared against the score list the code
actually averages. -/
def specAggregationScores (conn : Connector) (cols : List Column) : List ℚ :=
  (cols.map (fun c =>
      ((conn.colStats c.column_name c.data_type).completeness_pct).getD 100))
    ++ [if (cols.filter (fun c => c.is_primary_key)).isEmpty then (70 : ℚ) else 100]
    ++ (match cols.filter (fun c => isTemporalType c.data_type) with
        | [] => []
        | dc :: _ => [computeFreshness conn dc.column_name])

/-- A connector oracle whose every query fails and whose every statistics
lookup returns the error record; concrete instances for closed evaluations
are built from it by structure update. -/
def noDbConnector : Connector :=
  { colStats := fun _ _ => errorStats
    dupCombos := fun _ => .error ()
    maxDate := fun _ => .error ()
    ageDays := fun _ _ => none }

/-- Three analyzed tables with overall scores 95, 72 and 40 (the database
overview scenario fixed by the spec). -/
def c3Tables : List TableMetricsIn :=
  [{ table_name := "t1", overall_score := 95, issues := [] },
   { table_name := "t2", overall_score := 72, issues := [] },
   { table_name := "t3", overall_score := 40, issues := [] }]

/-- Statistics of a 2-row single-PK column where both rows share one key
value: 2 rows, 0 nulls, 1 distinct value, uniqueness 50. -/
def c6statsA : ColStats :=
  { total_rows := some 2, null_count := some 0, completeness_pct := some 100,
    distinct_count := some 1, uniqueness_pct := some 50,
    min := none, max := none, avg := none }

/-- Connector returning `c6statsA` for every column. -/
def c6connA : Connector :=
  { noDbConnector with colStats := fun _ _ => c6statsA }

/-- A single-column primary key. -/
def c6colA : Column := ⟨"id", "int", true, false⟩

/-- Connector whose composite-PK duplicate query reports one duplicate
combination. -/
def c6connB : Connector :=
  { noDbConnector with dupCombos := fun _ => .ok 1 }

/-- A two-column composite primary key. -/
def c6colsB : List Column :=
  [⟨"a", "int", true, false⟩, ⟨"b", "int", true, false⟩]

/-- One temporal column (declared type matches the heuristic via "time"). -/
def c7cols : List Column := [⟨"updated_at", "timestamp", false, true⟩]

/-- Connector whose MAX-date query returns a value that parses under the
second fixed format with an age of 400 days. -/
def c7conn : Connector :=
  { noDbConnector with
    maxDate := fun _ => .ok (some "2020-01-01")
    ageDays := fun fmt s =>
      if fmt = "%Y-%m-%d" ∧ s = "2020-01-01" then some 400 else none }

theorem roundHalfEven_le (q : ℚ) : (roundHalfEven q : ℚ) ≤ q + 1 / 2 := by
  unfold roundHalfEven
  split
  · next h =>
    have hq : (⌊q⌋ : ℚ) + 1 / 2 = q := by
      have := Int.floor_add_fract q
      rw [h] at this; linarith
    split <;> push_cast <;> linarith
  · have h := abs_sub_round q
    rw [abs_le] at h
    linarith [h.2]

theorem le_roundHalfEven (q : ℚ) : q - 1 / 2 ≤ (roundHalfEven q : ℚ) := by
  unfold roundHalfEven
  split
  · next h =>
    have hq : (⌊q⌋ : ℚ) + 1 / 2 = q := by
      have := Int.floor_add_fract q
      rw [h] at this; linarith
    split <;> push_cast <;> linarith
  · have h := abs_sub_round q
    rw [abs_le] at h
    linarith [h.1]

theorem roundHalfEven_nonneg {q : ℚ} (h : 0 ≤ q) : 0 ≤ roundHalfEven q := by
  have h1 := le_roundHalfEven q
  have h2 : (-1 : ℚ) < (roundHalfEven q : ℚ) := by linarith
  have : (-1 : ℤ) < roundHalfEven q := by exact_mod_cast h2
  omega

theorem roundHalfEven_le_of_le {q : ℚ} {N : ℤ} (h : q ≤ N) : roundHalfEven q ≤ N := by
  have h1 := roundHalfEven_le q
  have h2 : (roundHalfEven q : ℚ) < (N : ℚ) + 1 := by linarith
  have : roundHalfEven q < N + 1 := by exact_mod_cast h2
  omega

theorem roundHalfEven_intCast (z : ℤ) : roundHalfEven (z : ℚ) = z := by
  unfold roundHalfEven
  rw [Int.fract_intCast]
  norm_num

/-- Complementarity of banker's rounding: when two rationals add up to an even
integer `s`, their roundings add up to `s` exactly. -/
theorem roundHalfEven_add_compl (a : ℚ) (s : ℤ) (hs : 2 ∣ s) :
    roundHalfEven a + roundHalfEven ((s : ℚ) - a) = s := by
  obtain ⟨m, f, hf0, hf1, rfl⟩ : ∃ (m : ℤ) (f : ℚ), 0 ≤ f ∧ f < 1 ∧ a = (m : ℚ) + f :=
    ⟨⌊a⌋, Int.fract a, Int.fract_nonneg a, Int.fract_lt_one a,
     (Int.floor_add_fract a).symm⟩
  have hfr : Int.fract ((m : ℚ) + f) = f := by
    rw [Int.fract_int_add, Int.fract_eq_self.mpr ⟨hf0, hf1⟩]
  have hsub : (s : ℚ) - ((m : ℚ) + f) = ((s - m - 1 : ℤ) : ℚ) + (1 - f) := by
    push_cast; ring
  by_cases h0 : f = 0
  · subst h0
    have e1 : (m : ℚ) + 0 = ((m : ℤ) : ℚ) := by norm_num
    have e2 : (s : ℚ) - ((m : ℚ) + 0) = ((s - m : ℤ) : ℚ) := by push_cast; ring
    rw [e2, e1, roundHalfEven_intCast, roundHalfEven_intCast]
    omega
  · have hf0' : 0 < f := lt_of_le_of_ne hf0 (Ne.symm h0)
    have hfr' : Int.fract ((s : ℚ) - ((m : ℚ) + f)) = 1 - f := by
      rw [hsub, Int.fract_int_add, Int.fract_eq_self.mpr ⟨by linarith, by linarith⟩]
    by_cases h2 : f = 1 / 2
    · subst h2
      have hfl1 : ⌊(m : ℚ) + 1 / 2⌋ = m := by
        rw [add_comm, Int.floor_add_int]
        norm_num
      have hfl2 : ⌊(s : ℚ) - ((m : ℚ) + 1 / 2)⌋ = s - m - 1 := by
        rw [hsub, Int.floor_int_add]
        norm_num
      have hfr2 : Int.fract ((s : ℚ) - ((m : ℚ) + 1 / 2)) = 1 / 2 := by
        rw [hfr']; norm_num
      unfold roundHalfEven
      rw [if_pos hfr, if_pos hfr2, hfl1, hfl2]
      split_ifs <;> omega
    · have h2' : (1 : ℚ) - f ≠ 1 / 2 := by
        intro hcon; apply h2; linarith
      unfold roundHalfEven
      rw [if_neg (by rw [hfr]; exact h2), if_neg (by rw [hfr']; exact h2'),
        round_eq, round_eq]
      have e1 : (m : ℚ) + f + 1 / 2 = (m : ℚ) + (f + 1 / 2) := by ring
      have e2 : (s : ℚ) - ((m : ℚ) + f) + 1 / 2 = ((s - m - 1 : ℤ) : ℚ) + (3 / 2 - f) := by
        push_cast; ring
      rw [e1, e2, Int.floor_int_add, Int.floor_int_add]
      rcases lt_or_gt_of_ne h2 with hlt | hgt
      · have h01 : ⌊f + 1 / 2⌋ = 0 := by
          rw [Int.floor_eq_iff]
          push_cast
          constructor <;> linarith
        have h11 : ⌊(3 : ℚ) / 2 - f⌋ = 1 := by
          rw [Int.floor_eq_iff]
          push_cast
          constructor <;> linarith
        rw [h01, h11]; omega
      · have h01 : ⌊f + 1 / 2⌋ = 1 := by
          rw [Int.floor_eq_iff]
          push_cast
          constructor <;> linarith
        have h11 : ⌊(3 : ℚ) / 2 - f⌋ = 0 := by
          rw [Int.floor_eq_iff]
          push_cast
          constructor <;> linarith
        rw [h01, h11]; omega

/-- Claim C1: the read-only guard is claimed to run on every `execute` path of
every backend variant, so that an UPDATE is rejected before any database call.
This closed evaluation shows the code violating the claim:
`PostgreSQLConnector.execute` sends the UPDATE to the driver (`sent` is
non-empty and the call returns rows), while the SQLite and Snowflake variants
reject the same statement before it reaches the database. -/
theorem c1_postgres_guard_bypass :
    (pgExecute (fun _ => ([] : List Unit)) "UPDATE t SET x = 1").sent
        = ["UPDATE t SET x = 1"]
    ∧ (pgExecute (fun _ => ([] : List Unit)) "UPDATE t SET x = 1").result = .ok []
    ∧ (sqliteExecute (fun _ => ([] : List Unit)) "UPDATE t SET x = 1").sent = []
    ∧ (sqliteExecute (fun _ => ([] : List Unit)) "UPDATE t SET x = 1").result
        = .error (.readOnlyViolation "UPDATE")
    ∧ (snowflakeExecute true (fun _ => ([] : List Unit)) "UPDATE t SET x = 1").sent = []
    ∧ (snowflakeExecute true (fun _ => ([] : List Unit)) "UPDATE t SET x = 1").result
        = .error (.readOnlyViolation "UPDATE") :=
  ⟨rfl, rfl, rfl, rfl, rfl, rfl⟩

/-- Claim C2, counterexample: a statement whose leading keyword (`COPY`) is
not in the spec's read-only allow-list is nevertheless let through by the
guard and reaches the database, so the guarded statements are not exactly
those beginning with an allow-listed keyword. -/
theorem c2_counterexample :
    (sqliteExecute (fun _ => ([] : List Unit)) "COPY t FROM s").sent
        = ["COPY t FROM s"]
    ∧ (sqliteExecute (fun _ => ([] : List Unit)) "COPY t FROM s").result = .ok []
    ∧ specAllowList.contains (leadingKeyword "COPY t FROM s") = false :=
  ⟨rfl, rfl, rfl⟩

/-- Claim C2 (amended): the guarded `execute` variants (SQLite, Snowflake)
reject a statement before it reaches the database, with an error naming the
statement's first token, exactly when its leading keyword is in the fixed
write/DDL blacklist (INSERT, UPDATE, DELETE, DROP, CREATE, ALTER, TRUNCATE,
MERGE, REPLACE, CALL, EXEC, EXECUTE, GRANT, REVOKE); every other statement is
passed to the database. -/
theorem c2_guard_blacklist {ρ : Type} (db : String → List ρ) (sql : String) :
    ((sqliteExecute db sql).sent = []
      ∧ (sqliteExecute db sql).result
          = .error (.readOnlyViolation (firstTokenUpper sql))
      ∧ (snowflakeExecute true db sql).sent = []
      ∧ (snowflakeExecute true db sql).result
          = .error (.readOnlyViolation (firstTokenUpper sql)))
    ↔ writeKeywords.contains (leadingKeyword sql) = true := by
  cases h : writeKeywords.contains (leadingKeyword sql)
  · have h' : ¬ leadingKeyword sql ∈ writeKeywords := by simpa using h
    simp [sqliteExecute, snowflakeExecute, assertReadOnly, writePatternMatches, h, h']
  · have h' : leadingKeyword sql ∈ writeKeywords := by simpa using h
    simp [sqliteExecute, snowflakeExecute, assertReadOnly, writePatternMatches, h, h']

/-- Claim C8: for every column, `completeness_pct + null_pct = 100` holds
exactly (hence within any rounding tolerance) whenever `total_rows > 0`, and
both percentages are 0 when `total_rows = 0`. -/
theorem c8_completeness_plus_null (total nulls : ℕ) :
    (0 < total → completeness_pct total nulls + null_pct total nulls = 100)
    ∧ (total = 0 → completeness_pct total nulls = 0 ∧ null_pct total nulls = 0) := by
  constructor
  · intro ht
    have ht' : total ≠ 0 := Nat.pos_iff_ne_zero.mp ht
    have htQ : (total : ℚ) ≠ 0 := Nat.cast_ne_zero.mpr ht'
    unfold completeness_pct null_pct pyRound
    rw [if_neg ht', if_neg ht']
    have hcompl : ((total : ℚ) - (nulls : ℚ)) / (total : ℚ) * 100 * 10 ^ 2
        = ((10000 : ℤ) : ℚ) - (nulls : ℚ) / (total : ℚ) * 100 * 10 ^ 2 := by
      field_simp
      ring
    rw [hcompl]
    have h := roundHalfEven_add_compl ((nulls : ℚ) / (total : ℚ) * 100 * 10 ^ 2)
      10000 (by norm_num)
    have hq := congrArg (fun z : ℤ => (z : ℚ)) h
    push_cast at hq ⊢
    linarith
  · intro ht
    unfold completeness_pct null_pct
    rw [if_pos ht, if_pos ht]
    exact ⟨rfl, rfl⟩

/-- Claim C8, witness at `total_rows = 4`, `null_count = 1`. -/
theorem c8_witness :
    0 < 4 ∧ completeness_pct 4 1 + null_pct 4 1 = 100 :=
  ⟨by norm_num, (c8_completeness_plus_null 4 1).1 (by norm_num)⟩

/-- Claim C4, counterexample: with 20000 non-null rows of which 19999 are
distinct, `uniqueness_pct` rounds up to exactly 100 although the distinct
count differs from the non-null count, refuting
`uniqueness_pct = 100 → distinct_count = non_null_count`. -/
theorem c4_counterexample :
    uniqueness_pct 20000 0 19999 = 100
    ∧ (19999 : ℤ) ≠ (20000 : ℤ) - (0 : ℤ) := by
  constructor
  · have hfr : Int.fract ((19999 : ℚ) / 2) = 1 / 2 := by
      have he : ((19999 : ℚ) / 2) = ((9999 : ℤ) : ℚ) + (1 / 2 : ℚ) := by norm_num
      rw [he, Int.fract_int_add, Int.fract_eq_self.mpr ⟨by norm_num, by norm_num⟩]
    have hfl : ⌊(19999 : ℚ) / 2⌋ = 9999 := by
      have he : ((19999 : ℚ) / 2) = ((9999 : ℤ) : ℚ) + (1 / 2 : ℚ) := by norm_num
      rw [he, Int.floor_int_add]
      norm_num
    simp only [uniqueness_pct]
    norm_num
    simp only [pyRound]
    have harg : (19999 : ℚ) / 200 * 10 ^ 2 = 19999 / 2 := by norm_num
    rw [harg]
    simp only [roundHalfEven]
    rw [if_pos hfr, hfl, if_neg (by decide)]
    norm_num
  · decide

/-- Claim C4 (amended): given `distinct ≤ total − nulls`, `uniqueness_pct`
lies in `[0, 100]` and equals `distinct / (total − nulls) × 100` rounded to
2 decimals (0 when there are no non-null rows); `uniqueness_pct = 100` implies
the distinct count is within half a rounding unit of the non-null count
(`20000·(non_null − distinct) ≤ non_null`), and in particular equals it
whenever the non-null count is below 20000. -/
theorem c4_uniqueness_bounds (total nulls distinct : ℕ)
    (h : (distinct : ℤ) ≤ (total : ℤ) - (nulls : ℤ)) :
    0 ≤ uniqueness_pct total nulls distinct
    ∧ uniqueness_pct total nulls distinct ≤ 100
    ∧ (0 < (total : ℤ) - (nulls : ℤ) →
        uniqueness_pct total nulls distinct
          = pyRound ((distinct : ℚ) / (((total : ℤ) - (nulls : ℤ) : ℤ) : ℚ) * 100) 2)
    ∧ ((total : ℤ) - (nulls : ℤ) ≤ 0 → uniqueness_pct total nulls distinct = 0)
    ∧ (uniqueness_pct total nulls distinct = 100 →
        20000 * (((total : ℤ) - (nulls : ℤ)) - (distinct : ℤ))
          ≤ (total : ℤ) - (nulls : ℤ))
    ∧ (uniqueness_pct total nulls distinct = 100 →
        (total : ℤ) - (nulls : ℤ) < 20000 →
        (distinct : ℤ) = (total : ℤ) - (nulls : ℤ)) := by
  by_cases hpos : 0 < (total : ℤ) - (nulls : ℤ)
  · have hval : uniqueness_pct total nulls distinct
        = pyRound ((distinct : ℚ) / (((total : ℤ) - (nulls : ℤ) : ℤ) : ℚ) * 100) 2 := by
      unfold uniqueness_pct
      rw [if_pos hpos]
    set nn : ℤ := (total : ℤ) - (nulls : ℤ) with hnn
    have hnnQ : (0 : ℚ) < (nn : ℚ) := by exact_mod_cast hpos
    have hdQ : (distinct : ℚ) ≤ (nn : ℚ) := by exact_mod_cast h
    have hd0 : (0 : ℚ) ≤ (distinct : ℚ) := Nat.cast_nonneg distinct
    set x : ℚ := (distinct : ℚ) / (nn : ℚ) * 100 * 10 ^ 2 with hx
    have hx0 : 0 ≤ x := by positivity
    have hx1 : x ≤ ((10000 : ℤ) : ℚ) := by
      rw [hx]
      have hratio : (distinct : ℚ) / (nn : ℚ) ≤ 1 := (div_le_one hnnQ).mpr hdQ
      push_cast
      nlinarith
    have hu : uniqueness_pct total nulls distinct = (roundHalfEven x : ℚ) / 10 ^ 2 := by
      rw [hval]; rfl
    have hb1 : (0 : ℤ) ≤ roundHalfEven x := roundHalfEven_nonneg hx0
    have hb2 : roundHalfEven x ≤ 10000 := roundHalfEven_le_of_le hx1
    have himp : uniqueness_pct total nulls distinct = 100 →
        20000 * (nn - (distinct : ℤ)) ≤ nn := by
      intro h100
      rw [hu] at h100
      have hr : (roundHalfEven x : ℚ) = 10000 := by
        field_simp at h100
        linarith
      have hrz : roundHalfEven x = 10000 := by exact_mod_cast hr
      have hxge : ((10000 : ℤ) : ℚ) - 1 / 2 ≤ x := by
        have := roundHalfEven_le x
        rw [hrz] at this
        push_cast at this ⊢
        linarith
      have hQ : (20000 : ℚ) * ((nn : ℚ) - (distinct : ℚ)) ≤ (nn : ℚ) := by
        rw [hx] at hxge
        push_cast at hxge
        have hmul : ((10000 : ℚ) - 1 / 2) * (nn : ℚ) ≤ (distinct : ℚ) * 100 * 10 ^ 2 := by
          have := mul_le_mul_of_nonneg_right hxge (le_of_lt hnnQ)
          calc ((10000 : ℚ) - 1 / 2) * (nn : ℚ)
              ≤ (distinct : ℚ) / (nn : ℚ) * 100 * 10 ^ 2 * (nn : ℚ) := this
            _ = (distinct : ℚ) * 100 * 10 ^ 2 := by field_simp
        nlinarith
      exact_mod_cast hQ
    refine ⟨?_, ?_, fun _ => hval, ?_, himp, ?_⟩
    · rw [hu]
      positivity
    · rw [hu]
      have : (roundHalfEven x : ℚ) ≤ 10000 := by exact_mod_cast hb2
      norm_num
      linarith
    · intro hcon
      omega
    · intro h100 hlt
      have := himp h100
      omega
  · have hval : uniqueness_pct total nulls distinct = 0 := by
      unfold uniqueness_pct
      rw [if_neg hpos]
    rw [hval]
    refine ⟨le_refl 0, by norm_num, ?_, fun _ => rfl, ?_, ?_⟩
    · intro hcon
      exact absurd hcon hpos
    · intro h100
      norm_num at h100
    · intro h100
      norm_num at h100

/-- Claim C4, witness at `total_rows = 4`, `null_count = 1`,
`distinct_count = 3`. -/
theorem c4_witness :
    ((3 : ℤ) ≤ (4 : ℤ) - (1 : ℤ))
    ∧ (0 ≤ uniqueness_pct 4 1 3 ∧ uniqueness_pct 4 1 3 ≤ 100) :=
  ⟨by norm_num,
   ⟨(c4_uniqueness_bounds 4 1 3 (by norm_num)).1,
    (c4_uniqueness_bounds 4 1 3 (by norm_num)).2.1⟩⟩

theorem pyRound_int (z : ℤ) (n : ℕ) : pyRound (z : ℚ) n = (z : ℚ) := by
  unfold pyRound
  have he : (z : ℚ) * 10 ^ n = ((z * 10 ^ n : ℤ) : ℚ) := by push_cast; ring
  rw [he, roundHalfEven_intCast]
  have h10 : ((10 : ℚ)) ^ n ≠ 0 := by positivity
  push_cast
  field_simp

/-- Claim C3, counterexample: over tables scoring 95, 72 and 40 the database
grade computed by the code is "C+" (69.0 is ≥ 65 and < 70), not the "C-"
asserted by the claim. -/
theorem c3_counterexample :
    (computeDatabaseQualityOverview c3Tables).map (fun o => o.database_grade)
        = some "C+"
    ∧ ("C+" : String) ≠ "C-" := by
  constructor
  · simp only [c3Tables, computeDatabaseQualityOverview, Option.map]
    norm_num [scoreToGrade]
  · decide

/-- Claim C3 (amended): over three tables scoring 95, 72 and 40, the overview
has database_score 69.0, database_grade "C+", score distribution
excellent 1 / good 0 / fair 1 / poor 1, and worst_table the 40-scoring
table. -/
theorem c3_overview :
    (computeDatabaseQualityOverview c3Tables).map (fun o => o.database_score)
        = some 69
    ∧ (computeDatabaseQualityOverview c3Tables).map (fun o => o.database_grade)
        = some "C+"
    ∧ (computeDatabaseQualityOverview c3Tables).map (fun o => o.dist_excellent)
        = some 1
    ∧ (computeDatabaseQualityOverview c3Tables).map (fun o => o.dist_good)
        = some 0
    ∧ (computeDatabaseQualityOverview c3Tables).map (fun o => o.dist_fair)
        = some 1
    ∧ (computeDatabaseQualityOverview c3Tables).map (fun o => o.dist_poor)
        = some 1
    ∧ (computeDatabaseQualityOverview c3Tables).map (fun o => o.worst_table)
        = some "t3" := by
  refine ⟨?_, ?_, ?_, ?_, ?_, ?_, ?_⟩ <;>
    simp only [c3Tables, computeDatabaseQualityOverview, Option.map] <;>
    norm_num [scoreToGrade, pyMinBy, pyMaxBy, List.filter]
  · have h := pyRound_int 69 1
    push_cast at h
    exact h

/-- Claim C5, counterexample: a nullable column with completeness 30 gets a
medium-severity completeness issue although 30 is not between 50 and 80, so
"medium precisely when completeness is between 50 and 80" fails. -/
theorem c5_counterexample :
    ¬(((completenessStep ⟨"c", "text", false, true⟩
          ({ errorStats with
            completeness_pct := some 30
            null_count := some 7
            total_rows := some 10 })).1.map (fun i => i.severity) = ["medium"])
        ↔ (50 ≤ (30 : ℚ) ∧ (30 : ℚ) < 80)) := by
  intro h
  have hl : (completenessStep ⟨"c", "text", false, true⟩
      ({ errorStats with
        completeness_pct := some 30
        null_count := some 7
        total_rows := some 10 })).1.map (fun i => i.severity) = ["medium"] := by
    norm_num [completenessStep, errorStats]
  have hr := h.mp hl
  norm_num at hr

/-- Claim C5 (amended): a high completeness issue is emitted exactly when
completeness < 50 and the column is NOT NULL; a medium completeness issue is
emitted exactly when completeness < 80 and the high branch did not fire (so
also below 50 for nullable columns); at completeness = 100 on a NOT NULL
column a highlight is recorded and no completeness issue is emitted. -/
theorem c5_completeness_rules (c : Column) (s : ColStats) :
    ((∃ i ∈ (completenessStep c s).1, i.severity = "high") ↔
        (s.completeness_pct.getD 100 < 50 ∧ c.is_nullable = false))
    ∧ ((∃ i ∈ (completenessStep c s).1, i.severity = "medium") ↔
        (¬(s.completeness_pct.getD 100 < 50 ∧ c.is_nullable = false)
          ∧ s.completeness_pct.getD 100 < 80))
    ∧ ((s.completeness_pct.getD 100 = 100 ∧ c.is_nullable = false) →
        ((completenessStep c s).1 = []
          ∧ (completenessStep c s).2 = [.complete c.column_name])) := by
  simp only [completenessStep]
  split_ifs with h1 h2 h3
  · refine ⟨by simp [h1], by simp [h1], ?_⟩
    intro hc
    exfalso
    rw [hc.1] at h1
    norm_num at h1
  · refine ⟨by simp [h1], by simp [h1, h2], ?_⟩
    intro hc
    exfalso
    rw [hc.1] at h2
    norm_num at h2
  · exact ⟨by simp [h1], by simp [h1, h2], fun _ => ⟨rfl, rfl⟩⟩
  · refine ⟨by simp [h1], by simp [h1, h2], ?_⟩
    intro hc
    exact absurd hc h3

/-- Claim C5, witness: a NOT NULL column with completeness 100 triggers the
highlight branch with no completeness issue. -/
theorem c5_witness :
    ((({ errorStats with completeness_pct := some 100 } : ColStats).completeness_pct.getD 100
          = 100)
      ∧ (⟨"id", "int", true, false⟩ : Column).is_nullable = false)
    ∧ (completenessStep ⟨"id", "int", true, false⟩
        ({ errorStats with completeness_pct := some 100 })).1 = []
    ∧ (completenessStep ⟨"id", "int", true, false⟩
        ({ errorStats with completeness_pct := some 100 })).2 = [.complete "id"] :=
  ⟨⟨rfl, rfl⟩,
   (c5_completeness_rules ⟨"id", "int", true, false⟩
      ({ errorStats with completeness_pct := some 100 })).2.2 ⟨rfl, rfl⟩⟩

/-- Claim C10: a column whose statistics computation failed (error record,
no completeness_pct) is treated as 100% complete by the analyzer loop: no
issue is emitted for it, 100 is appended to the score list (and, when the
column is NOT NULL, it is even recorded as a 100%-complete highlight). -/
theorem c10_error_stats_column (c : Column) (pkTotal : ℕ) :
    colStep c errorStats pkTotal =
      { issues := []
        highlights := if c.is_nullable = false then [.complete c.column_name] else []
        score := 100
        rowCount := none } := by
  cases hn : c.is_nullable <;>
    norm_num [colStep, completenessStep, uniquenessStep, priceStep, errorStats, hn]

theorem analyzeScores_eq_spec (conn : Connector) (cols : List Column) :
    analyzeScores conn cols = specAggregationScores conn cols := by
  unfold analyzeScores specAggregationScores columnsSteps pkScorePart freshPart
  cases hf : cols.filter (fun c => isTemporalType c.data_type) <;>
    simp [List.map_map, colStep, Function.comp, hf]

theorem analyzeScores_ne_nil (conn : Connector) (cols : List Column) :
    analyzeScores conn cols ≠ [] := by
  simp [analyzeScores]

/-- Claim C9: overall_score is the arithmetic mean — rounded to 1 decimal —
of the collection of all column completeness percentages, the primary-key
contribution (70 without a PK, 100 with), and the freshness score when a
temporal column exists, and the grade is obtained from that (unrounded) mean
by the fixed thresholds. -/
theorem c9_overall_and_grade (conn : Connector) (tableName : String)
    (columns : List Column) :
    (analyzeTableQuality conn tableName columns).overall_score
        = pyRound ((specAggregationScores conn columns).sum
            / ((specAggregationScores conn columns).length : ℚ)) 1
    ∧ (analyzeTableQuality conn tableName columns).grade
        = scoreToGrade ((specAggregationScores conn columns).sum
            / ((specAggregationScores conn columns).length : ℚ)) := by
  have hs := analyzeScores_eq_spec conn columns
  have hne := analyzeScores_ne_nil conn columns
  constructor
  · simp only [analyzeTableQuality]
    rw [if_neg hne, hs]
  · simp only [analyzeTableQuality]
    rw [if_neg hne, hs]

theorem mem_completenessStep (c : Column) (s : ColStats) :
    ∀ i ∈ (completenessStep c s).1,
      (i.severity = "high" ∧ ∃ a b, i.payload = .notNullCompleteness a b)
      ∨ (i.severity = "medium" ∧ ∃ a b t, i.payload = .lowCompleteness a b t) := by
  simp only [completenessStep]
  split_ifs <;> simp

theorem mem_uniquenessStep (c : Column) (s : ColStats) (pk : ℕ) :
    ∀ i ∈ uniquenessStep c s pk,
      i.severity = "critical" ∧ ∃ u d, i.payload = .pkDuplicates u d := by
  unfold uniquenessStep
  rcases hu : s.uniqueness_pct with _ | u
  · simp
  · dsimp only
    split_ifs <;> simp

theorem mem_priceStep (c : Column) (s : ColStats) :
    ∀ i ∈ priceStep c s,
      i.severity = "high" ∧ ∃ a b, i.payload = .negativePrice a b := by
  unfold priceStep
  split
  · split_ifs <;> simp
  · simp

theorem mem_colStep (c : Column) (s : ColStats) (pk : ℕ) :
    ∀ i ∈ (colStep c s pk).issues,
      (i.severity = "high" ∧ ∃ a b, i.payload = .notNullCompleteness a b)
      ∨ (i.severity = "medium" ∧ ∃ a b t, i.payload = .lowCompleteness a b t)
      ∨ (i.severity = "critical" ∧ ∃ u d, i.payload = .pkDuplicates u d)
      ∨ (i.severity = "high" ∧ ∃ a b, i.payload = .negativePrice a b) := by
  intro i hi
  simp only [colStep, List.mem_append] at hi
  rcases hi with (hi | hi) | hi
  · rcases mem_completenessStep c s i hi with h | h
    · exact Or.inl h
    · exact Or.inr (Or.inl h)
  · exact Or.inr (Or.inr (Or.inl (mem_uniquenessStep c s pk i hi)))
  · exact Or.inr (Or.inr (Or.inr (mem_priceStep c s i hi)))

theorem mem_pkIssuesPart (conn : Connector) (cols : List Column) :
    ∀ i ∈ pkIssuesPart conn cols,
      (i.severity = "medium" ∧ i.payload = .noPrimaryKey)
      ∨ (i.severity = "critical" ∧ ∃ d, i.payload = .compositePkDuplicates d) := by
  intro i hi
  simp only [pkIssuesPart] at hi
  split_ifs at hi
  · simp at hi
    subst hi
    exact Or.inl ⟨rfl, rfl⟩
  · rcases hd : conn.dupCombos ((cols.filter (fun c => c.is_primary_key)).map
        (fun c => c.column_name)) with e | d <;> rw [hd] at hi
    · simp at hi
    · dsimp only at hi
      split_ifs at hi
      · simp at hi
        subst hi
        exact Or.inr ⟨rfl, ⟨d, rfl⟩⟩
      · simp at hi
  · simp at hi

theorem mem_freshIssuesPart (conn : Connector) (cols : List Column) :
    ∀ i ∈ freshIssuesPart conn cols,
      i.severity = "medium" ∧ ∃ q, i.payload = .stale q := by
  intro i hi
  simp only [freshIssuesPart] at hi
  rcases hf : freshPart conn cols with _ | p <;> rw [hf] at hi
  · simp at hi
  · dsimp only at hi
    split_ifs at hi
    · simp at hi
      subst hi
      exact ⟨rfl, ⟨p.2, rfl⟩⟩
    · simp at hi

/-- The issue list of the report is a permutation of the concatenation of the
per-column, primary-key and freshness issue lists. -/
theorem analyze_issues_perm (conn : Connector) (tableName : String)
    (cols : List Column) :
    (analyzeTableQuality conn tableName cols).issues.Perm
      ((((columnsSteps conn cols).map (fun p => p.issues)).flatten
        ++ pkIssuesPart conn cols ++ freshIssuesPart conn cols)) := by
  simp only [analyzeTableQuality]
  exact List.mergeSort_perm _ _

theorem mem_analyze_issues (conn : Connector) (tableName : String)
    (cols : List Column) (i : Issue) :
    i ∈ (analyzeTableQuality conn tableName cols).issues ↔
      ((∃ c ∈ cols, i ∈ (colStep c (conn.colStats c.column_name c.data_type)
          ((cols.filter (fun c => c.is_primary_key)).length)).issues)
        ∨ i ∈ pkIssuesPart conn cols ∨ i ∈ freshIssuesPart conn cols) := by
  rw [(analyze_issues_perm conn tableName cols).mem_iff]
  unfold columnsSteps
  constructor
  · intro h
    rcases List.mem_append.mp h with h' | hfresh
    · rcases List.mem_append.mp h' with hcol | hpk
      · rcases List.mem_flatten.mp hcol with ⟨l, hl, hil⟩
        rcases List.mem_map.mp hl with ⟨p, hp, rfl⟩
        rcases List.mem_map.mp hp with ⟨c, hc, rfl⟩
        exact Or.inl ⟨c, hc, hil⟩
      · exact Or.inr (Or.inl hpk)
    · exact Or.inr (Or.inr hfresh)
  · intro h
    rcases h with ⟨c, hc, hil⟩ | hpk | hfresh
    · exact List.mem_append.mpr (Or.inl (List.mem_append.mpr (Or.inl
        (List.mem_flatten.mpr ⟨_, List.mem_map.mpr
          ⟨_, List.mem_map.mpr ⟨c, hc, rfl⟩, rfl⟩, hil⟩))))
    · exact List.mem_append.mpr (Or.inl (List.mem_append.mpr (Or.inr hpk)))
    · exact List.mem_append.mpr (Or.inr hfresh)

/-- Claim C7: freshness scoring — 75 on query failure, 50 on missing/NULL
maximum, 75 when no fixed format parses, the fixed age bands (≤1→100, ≤7→90,
≤30→80, ≤90→65, ≤180→50, ≤365→35, else 20) otherwise; the report's freshness
score is that of the first temporal column and is absent (not zero) when no
column matches the temporal heuristic; a medium staleness issue is emitted
exactly when the freshness score is below 50. -/
theorem c7_freshness :
    (∀ (conn : Connector) (dc : String),
        conn.maxDate dc = .error () → computeFreshness conn dc = 75)
    ∧ (∀ (conn : Connector) (dc : String),
        conn.maxDate dc = .ok none → computeFreshness conn dc = 50)
    ∧ (∀ (conn : Connector) (dc latest : String),
        conn.maxDate dc = .ok (some latest) →
        dateFormats.findSome? (fun fmt => conn.ageDays fmt (latest.take 19)) = none →
        computeFreshness conn dc = 75)
    ∧ (∀ (conn : Connector) (dc latest : String) (age : ℤ),
        conn.maxDate dc = .ok (some latest) →
        dateFormats.findSome? (fun fmt => conn.ageDays fmt (latest.take 19)) = some age →
        computeFreshness conn dc = freshnessBand age)
    ∧ (∀ age : ℤ,
        (age ≤ 1 → freshnessBand age = 100)
        ∧ (1 < age → age ≤ 7 → freshnessBand age = 90)
        ∧ (7 < age → age ≤ 30 → freshnessBand age = 80)
        ∧ (30 < age → age ≤ 90 → freshnessBand age = 65)
        ∧ (90 < age → age ≤ 180 → freshnessBand age = 50)
        ∧ (180 < age → age ≤ 365 → freshnessBand age = 35)
        ∧ (365 < age → freshnessBand age = 20))
    ∧ (∀ (conn : Connector) (tableName : String) (columns : List Column),
        columns.filter (fun c => isTemporalType c.data_type) = [] →
        (analyzeTableQuality conn tableName columns).freshness_score = none
        ∧ ∀ i ∈ (analyzeTableQuality conn tableName columns).issues,
            ∀ q, i.payload ≠ .stale q)
    ∧ (∀ (conn : Connector) (tableName : String) (columns : List Column)
          (dc : Column) (rest : List Column),
        columns.filter (fun c => isTemporalType c.data_type) = dc :: rest →
        (analyzeTableQuality conn tableName columns).freshness_score
            = some (computeFreshness conn dc.column_name)
        ∧ ((∃ i ∈ (analyzeTableQuality conn tableName columns).issues,
              i.severity = "medium" ∧ ∃ q, i.payload = .stale q)
            ↔ computeFreshness conn dc.column_name < 50)) := by
  refine ⟨?_, ?_, ?_, ?_, ?_, ?_, ?_⟩
  · intro conn dc h
    simp [computeFreshness, h]
  · intro conn dc h
    simp [computeFreshness, h]
  · intro conn dc latest h hfind
    simp [computeFreshness, h, hfind]
  · intro conn dc latest age h hfind
    simp [computeFreshness, h, hfind]
  · intro age
    unfold freshnessBand
    refine ⟨?_, ?_, ?_, ?_, ?_, ?_, ?_⟩ <;> intros <;> split_ifs <;>
      first | rfl | omega
  · intro conn tableName columns hf
    have hfp : freshPart conn columns = none := by
      unfold freshPart
      rw [hf]
    constructor
    · simp only [analyzeTableQuality]
      rw [hfp]
      rfl
    · intro i hi q
      rcases (mem_analyze_issues conn tableName columns i).mp hi with
        ⟨c, hc, hic⟩ | hpk | hfr
      · rcases mem_colStep _ _ _ i hic with
          ⟨_, a, b, hp⟩ | ⟨_, a, b, t, hp⟩ | ⟨_, u, d, hp⟩ | ⟨_, a, b, hp⟩ <;>
          simp [hp]
      · rcases mem_pkIssuesPart conn columns i hpk with ⟨_, hp⟩ | ⟨_, d, hp⟩ <;>
          simp [hp]
      · have hnil : freshIssuesPart conn columns = [] := by
          unfold freshIssuesPart
          rw [hfp]
        rw [hnil] at hfr
        simp at hfr
  · intro conn tableName columns dc rest hf
    have hfp : freshPart conn columns
        = some (dc.column_name, computeFreshness conn dc.column_name) := by
      unfold freshPart
      rw [hf]
    constructor
    · simp only [analyzeTableQuality]
      rw [hfp]
      rfl
    · constructor
      · rintro ⟨i, hi, hsev, q, hq⟩
        rcases (mem_analyze_issues conn tableName columns i).mp hi with
          ⟨c, hc, hic⟩ | hpk | hfr
        · rcases mem_colStep _ _ _ i hic with
            ⟨_, a, b, hp⟩ | ⟨_, a, b, t, hp⟩ | ⟨_, u, d, hp⟩ | ⟨_, a, b, hp⟩ <;>
            rw [hp] at hq <;> simp at hq
        · rcases mem_pkIssuesPart conn columns i hpk with ⟨_, hp⟩ | ⟨_, d, hp⟩ <;>
            rw [hp] at hq <;> simp at hq
        · unfold freshIssuesPart at hfr
          rw [hfp] at hfr
          dsimp only at hfr
          split_ifs at hfr with h50
          · exact h50
          · simp at hfr
      · intro h50
        refine ⟨{ severity := "medium"
                  column := some dc.column_name
                  payload := .stale (computeFreshness conn dc.column_name) },
          ?_, rfl, ⟨_, rfl⟩⟩
        apply (mem_analyze_issues conn tableName columns _).mpr
        refine Or.inr (Or.inr ?_)
        unfold freshIssuesPart
        rw [hfp]
        dsimp only
        rw [if_pos h50]
        simp

theorem uniquenessStep_nonpk (c : Column) (s : ColStats) (pk : ℕ)
    (hc : c.is_primary_key = false) : uniquenessStep c s pk = [] := by
  unfold uniquenessStep
  rcases hu : s.uniqueness_pct with _ | u
  · rfl
  · dsimp only
    have hcond : ¬(c.is_primary_key = true ∧ pk = 1 ∧ u < 100) := by
      rintro ⟨h1, -, -⟩
      rw [hc] at h1
      exact Bool.false_ne_true h1
    rw [if_neg hcond]

theorem uniquenessStep_ne_one (c : Column) (s : ColStats) (pk : ℕ)
    (hpk : pk ≠ 1) : uniquenessStep c s pk = [] := by
  unfold uniquenessStep
  rcases hu : s.uniqueness_pct with _ | u
  · rfl
  · dsimp only
    have hcond : ¬(c.is_primary_key = true ∧ pk = 1 ∧ u < 100) := by
      rintro ⟨-, h1, -⟩
      exact hpk h1
    rw [if_neg hcond]

theorem filter_critical_colStep (c : Column) (s : ColStats) (pk : ℕ) :
    (colStep c s pk).issues.filter (fun i => i.severity = "critical")
      = uniquenessStep c s pk := by
  have h1 : (completenessStep c s).1.filter (fun i => i.severity = "critical")
      = [] := by
    rw [List.filter_eq_nil_iff]
    intro i hi
    rcases mem_completenessStep c s i hi with ⟨hs, -⟩ | ⟨hs, -⟩ <;> simp [hs]
  have h2 : (uniquenessStep c s pk).filter (fun i => i.severity = "critical")
      = uniquenessStep c s pk := by
    rw [List.filter_eq_self]
    intro i hi
    simp [(mem_uniquenessStep c s pk i hi).1]
  have h3 : (priceStep c s).filter (fun i => i.severity = "critical") = [] := by
    rw [List.filter_eq_nil_iff]
    intro i hi
    simp [(mem_priceStep c s i hi).1]
  simp only [colStep]
  rw [List.filter_append, List.filter_append, h1, h2, h3]
  simp

theorem flatten_uniquenessStep (stats : Column → ColStats) (pk : ℕ) :
    ∀ (cols : List Column) (pc : Column),
      cols.filter (fun c => c.is_primary_key) = [pc] →
      (cols.map (fun c => uniquenessStep c (stats c) pk)).flatten
        = uniquenessStep pc (stats pc) pk := by
  intro cols
  induction cols with
  | nil =>
    intro pc h
    simp at h
  | cons c cs ih =>
    intro pc h
    by_cases hc : c.is_primary_key = true
    · rw [List.filter_cons_of_pos (by simpa using hc)] at h
      simp only [List.cons.injEq] at h
      obtain ⟨rfl, hnil⟩ := h
      simp only [List.map_cons, List.flatten_cons]
      have hrest : (cs.map (fun c => uniquenessStep c (stats c) pk)).flatten = [] := by
        rw [List.flatten_eq_nil_iff]
        intro l hl
        rcases List.mem_map.mp hl with ⟨c', hc', rfl⟩
        have hcf : c'.is_primary_key = false := by
          by_contra hcon
          have hmem : c' ∈ cs.filter (fun c => c.is_primary_key) :=
            List.mem_filter.mpr ⟨hc', by simpa using hcon⟩
          rw [hnil] at hmem
          simp at hmem
        exact uniquenessStep_nonpk _ _ _ hcf
      rw [hrest, List.append_nil]
    · rw [List.filter_cons_of_neg (by simpa using hc)] at h
      simp only [List.map_cons, List.flatten_cons]
      rw [uniquenessStep_nonpk _ _ _ (by simpa using hc), List.nil_append]
      exact ih pc h

/-- Claim C6: a single-column primary key with uniqueness below 100 yields
exactly one critical issue — referencing that column and reporting
`total_rows − distinct_count` duplicates (for a 2-row table with one shared
key value, uniqueness_pct is 50); with a composite primary key no per-column
PK-duplicate issue is ever emitted, and the table-level critical issue appears
exactly when the GROUP-BY-over-all-PK-columns duplicate query (the
`dupCombos` oracle) reports a positive count. -/
theorem c6_pk_uniqueness :
    (∀ (conn : Connector) (tableName : String) (columns : List Column)
        (pc : Column) (u : ℚ),
      columns.filter (fun c => c.is_primary_key) = [pc] →
      (conn.colStats pc.column_name pc.data_type).uniqueness_pct = some u →
      u < 100 →
      (analyzeTableQuality conn tableName columns).issues.filter
          (fun i => i.severity = "critical")
        = [{ severity := "critical", column := some pc.column_name,
             payload := .pkDuplicates u
               (((conn.colStats pc.column_name pc.data_type).total_rows.getD 0 : ℤ)
                 - ((conn.colStats pc.column_name pc.data_type).distinct_count.getD 0 : ℤ)) }])
    ∧ uniqueness_pct 2 0 1 = 50
    ∧ (∀ (conn : Connector) (tableName : String) (columns : List Column),
        1 < (columns.filter (fun c => c.is_primary_key)).length →
        ((∀ i ∈ (analyzeTableQuality conn tableName columns).issues,
            ∀ u d, i.payload ≠ .pkDuplicates u d)
          ∧ (analyzeTableQuality conn tableName columns).issues.countP
              (fun i => match i.payload with
                | .compositePkDuplicates _ => true
                | _ => false)
            = (match conn.dupCombos ((columns.filter (fun c => c.is_primary_key)).map
                  (fun c => c.column_name)) with
               | .ok d => if d > 0 then 1 else 0
               | .error _ => 0))) := by
  refine ⟨?_, ?_, ?_⟩
  · intro conn tableName columns pc u hfilter hu hu100
    have hpk1 : (columns.filter (fun c => c.is_primary_key)).length = 1 := by
      rw [hfilter]
      rfl
    have hpcmem : pc ∈ columns.filter (fun c => c.is_primary_key) := by
      rw [hfilter]
      simp
    have hpcpk : pc.is_primary_key = true := by
      simpa using (List.mem_filter.mp hpcmem).2
    have hustep : uniquenessStep pc (conn.colStats pc.column_name pc.data_type) 1
        = [{ severity := "critical", column := some pc.column_name,
             payload := .pkDuplicates u
               (((conn.colStats pc.column_name pc.data_type).total_rows.getD 0 : ℤ)
                 - ((conn.colStats pc.column_name pc.data_type).distinct_count.getD 0 : ℤ)) }] := by
      unfold uniquenessStep
      rw [hu]
      dsimp only
      rw [if_pos ⟨hpcpk, rfl, hu100⟩]
    have hcol : ((((columnsSteps conn columns).map (fun p => p.issues)).flatten).filter
        (fun i => i.severity = "critical"))
        = uniquenessStep pc (conn.colStats pc.column_name pc.data_type) 1 := by
      rw [List.filter_flatten]
      unfold columnsSteps
      rw [hpk1, List.map_map, List.map_map]
      simp only [Function.comp_def, filter_critical_colStep]
      exact flatten_uniquenessStep
        (fun c => conn.colStats c.column_name c.data_type) 1 columns pc hfilter
    have hpknil : pkIssuesPart conn columns = [] := by
      simp only [pkIssuesPart]
      split_ifs with h1 h2
      · exfalso
        rw [List.isEmpty_iff.mp h1] at hpk1
        simp at hpk1
      · exfalso
        omega
      · rfl
    have hfreshcrit : (freshIssuesPart conn columns).filter
        (fun i => i.severity = "critical") = [] := by
      rw [List.filter_eq_nil_iff]
      intro i hi
      simp [(mem_freshIssuesPart conn columns i hi).1]
    have hRHS : ((((columnsSteps conn columns).map (fun p => p.issues)).flatten
        ++ pkIssuesPart conn columns ++ freshIssuesPart conn columns)).filter
        (fun i => i.severity = "critical")
        = [{ severity := "critical", column := some pc.column_name,
             payload := .pkDuplicates u
               (((conn.colStats pc.column_name pc.data_type).total_rows.getD 0 : ℤ)
                 - ((conn.colStats pc.column_name pc.data_type).distinct_count.getD 0 : ℤ)) }] := by
      rw [List.filter_append, List.filter_append, hcol, hpknil, hfreshcrit, hustep]
      simp
    exact List.perm_singleton.mp
      (hRHS ▸ ((analyze_issues_perm conn tableName columns).filter
        (fun i => i.severity = "critical")))
  · simp only [uniqueness_pct]
    norm_num
    have h := pyRound_int 50 2
    push_cast at h
    exact h
  · intro conn tableName columns hlen
    have hne1 : (columns.filter (fun c => c.is_primary_key)).length ≠ 1 := by omega
    constructor
    · intro i hi u d
      rcases (mem_analyze_issues conn tableName columns i).mp hi with
        ⟨c, hc, hic⟩ | hpk | hfr
      · simp only [colStep, List.mem_append] at hic
        rcases hic with (h1 | h2) | h3
        · rcases mem_completenessStep _ _ i h1 with ⟨-, a, b, hp⟩ | ⟨-, a, b, t, hp⟩ <;>
            simp [hp]
        · rw [uniquenessStep_ne_one _ _ _ hne1] at h2
          simp at h2
        · rcases mem_priceStep _ _ i h3 with ⟨-, a, b, hp⟩
          simp [hp]
      · rcases mem_pkIssuesPart conn columns i hpk with ⟨-, hp⟩ | ⟨-, d', hp⟩ <;>
          simp [hp]
      · rcases mem_freshIssuesPart conn columns i hfr with ⟨-, q, hp⟩
        simp [hp]
    · rw [(analyze_issues_perm conn tableName columns).countP_eq]
      rw [List.countP_append, List.countP_append]
      have hA : (((columnsSteps conn columns).map (fun p => p.issues)).flatten).countP
          (fun i => match i.payload with
            | IssuePayload.compositePkDuplicates _ => true
            | _ => false) = 0 := by
        rw [List.countP_eq_zero]
        intro i hi
        rcases List.mem_flatten.mp hi with ⟨l, hl, hil⟩
        rcases List.mem_map.mp hl with ⟨p', hp', rfl⟩
        rcases List.mem_map.mp hp' with ⟨c, hc, rfl⟩
        rcases mem_colStep _ _ _ i hil with
          ⟨-, a, b, hp⟩ | ⟨-, a, b, t, hp⟩ | ⟨-, u, d, hp⟩ | ⟨-, a, b, hp⟩ <;>
          simp [hp]
      have hC : (freshIssuesPart conn columns).countP
          (fun i => match i.payload with
            | IssuePayload.compositePkDuplicates _ => true
            | _ => false) = 0 := by
        rw [List.countP_eq_zero]
        intro i hi
        rcases mem_freshIssuesPart conn columns i hi with ⟨-, q, hp⟩
        simp [hp]
      have hB : (pkIssuesPart conn columns).countP
          (fun i => match i.payload with
            | IssuePayload.compositePkDuplicates _ => true
            | _ => false)
          = (match conn.dupCombos ((columns.filter (fun c => c.is_primary_key)).map
                (fun c => c.column_name)) with
             | .ok d => if d > 0 then 1 else 0
             | .error _ => 0) := by
        have hne : (columns.filter (fun c => c.is_primary_key)).isEmpty = false := by
          rcases hcols : columns.filter (fun c => c.is_primary_key) with _ | ⟨x, xs⟩
          · rw [hcols] at hlen
            simp at hlen
          · rw [hcols]
            rfl
        simp only [pkIssuesPart]
        rw [if_neg (by simp [hne]), if_pos hlen]
        rcases hd : conn.dupCombos ((columns.filter (fun c => c.is_primary_key)).map
            (fun c => c.column_name)) with e | d
        · rw [hd]
          rfl
        · rw [hd]
          dsimp only
          split_ifs with hpos
          · simp
          · rfl
      rw [hA, hB, hC]
      simp

/-- Claim C6, witness: a 2-row single-PK table with a shared key value yields
exactly the one critical duplicate issue, and a 2-column composite PK with one
duplicate combination yields exactly one composite critical issue. -/
theorem c6_witness :
    ([c6colA].filter (fun c => c.is_primary_key) = [c6colA]
      ∧ (c6connA.colStats c6colA.column_name c6colA.data_type).uniqueness_pct
          = some 50
      ∧ (50 : ℚ) < 100
      ∧ (analyzeTableQuality c6connA "t" [c6colA]).issues.filter
          (fun i => i.severity = "critical")
        = [{ severity := "critical", column := some "id",
             payload := .pkDuplicates 50 1 }])
    ∧ (1 < (c6colsB.filter (fun c => c.is_primary_key)).length
      ∧ (analyzeTableQuality c6connB "t" c6colsB).issues.countP
          (fun i => match i.payload with
            | IssuePayload.compositePkDuplicates _ => true
            | _ => false) = 1) :=
  ⟨⟨by decide, rfl, by norm_num,
    c6_pk_uniqueness.1 c6connA "t" [c6colA] c6colA 50 (by decide) rfl (by norm_num)⟩,
   ⟨by decide,
    (c6_pk_uniqueness.2.2 c6connB "t" c6colsB (by decide)).2⟩⟩

/-- Claim C7, witness: a failing MAX query scores 75; an age of 400 days falls
in the lowest band (20); with one temporal column the report's freshness score
is that of this column. -/
theorem c7_witness :
    (noDbConnector.maxDate "d" = .error ()
      ∧ computeFreshness noDbConnector "d" = 75)
    ∧ ((365 : ℤ) < 400 ∧ freshnessBand 400 = 20)
    ∧ (c7cols.filter (fun c => isTemporalType c.data_type)
          = (⟨"updated_at", "timestamp", false, true⟩ : Column) :: []
      ∧ (analyzeTableQuality c7conn "t" c7cols).freshness_score
          = some (computeFreshness c7conn
              (⟨"updated_at", "timestamp", false, true⟩ : Column).column_name)) :=
  ⟨⟨rfl, c7_freshness.1 noDbConnector "d" rfl⟩,
   ⟨by norm_num, (c7_freshness.2.2.2.2.1 400).2.2.2.2.2.2 (by norm_num)⟩,
   ⟨by decide,
    (c7_freshness.2.2.2.2.2.2 c7conn "t" c7cols
      ⟨"updated_at", "timestamp", false, true⟩ [] (by decide)).1⟩⟩

end DataLens
